import Mathlib

/-!
# testhttp step handlers (src/testhttp/setup.go)

A shallow embedding of the ten BDD step handlers of package `testhttp` and of the
pieces of the Go runtime and standard library they go through:

* `context.Context` is the chain of `(key, value)` pairs built by `context.WithValue`;
  `ctx.Value(k)` finds the most recent pair for `k`, a type assertion `.(T)` on the result
  panics when the value is `nil` or has another dynamic type.
* `*http.Request` and `io.ReadCloser` are references into a heap; reading a body drains the
  reader it points to.
* Go strings and byte slices are `String`; the header functions only look at ASCII
  characters, every byte of a non-ASCII character being an invalid header byte.
* What the package takes from outside (`TestHTTP.MakeRequest`, `json.Valid`, `url.Parse`,
  the message of `assert.Equals`, `strconv.Quote`) is a field of `Env`.
-/

namespace testhttp

/-! ## Data model -/

/-- A Go `error` value, identified by its message. -/
structure Error where
  msg : String
  deriving DecidableEq, Repr

/-- A heap address: a `*http.Request` or the reader behind an `io.ReadCloser`.  An address
outside the heap behaves as the nil pointer. -/
abbrev Addr := Nat

/-- The map `http.Header`, `map[string][]string`: the nil map (the `Header` of a zero
`http.Request`) or an allocated map, in which a key that is absent maps to no values. -/
inductive Header where
  | nil
  | alloc (m : String → List String)

/-- The header map `make(http.Header)`. -/
def Header.empty : Header := Header.alloc (fun _ => [])

/-- The index expression `h[k]`; reading the nil map gives no values. -/
def Header.index (h : Header) (k : String) : List String :=
  match h with
  | .nil => []
  | .alloc m => m k

/-- The state of an `io.Reader`: the bytes still unread and what the reader reports once
they are drained (`none` is `io.EOF`). -/
structure Reader where
  data : String
  err : Option Error
  deriving DecidableEq, Repr

/-- The fields of `http.Request` the handlers touch; `Body` is `none` for a nil body. -/
structure Request where
  Method : String
  URL : String
  Header : Header
  Body : Option Addr

/-- Modelled from the spec: the struct `Response` of the package is declared outside
setup.go; these are the fields the handlers use, the Response Descriptor of the spec (status
code, header multimap, body byte-stream). `Body` is `none` for a nil body. -/
structure Response where
  Code : Int
  Header : Header
  Body : Option Addr

/-- The objects on the heap. -/
structure Heap where
  requests : List Request
  readers : List Reader

/-- One call of the round-trip function: the pointer it got and the request behind it. -/
structure Trip where
  ptr : Addr
  sent : Option Request

/-- The heap together with the log of round trips made so far. -/
structure World where
  heap : Heap
  trips : List Trip

/-- The context keys `RequestKey{}` and `ResponseKey{}`. -/
inductive Key where
  | RequestKey
  | ResponseKey
  deriving DecidableEq, Repr

/-- The dynamic value stored under a key: a `*http.Request`, a `Response`, or a value of any
other type. -/
inductive Value where
  | request (p : Addr)
  | response (r : Response)
  | other

/-- The chain `context.WithValue` builds, most recent pair first; `[]` is the background
context. -/
abbrev Context := List (Key × Value)

/-- The lookup `ctx.Value(k)`: `none` is the nil interface. -/
def Context.Value (ctx : Context) (k : Key) : Option Value :=
  match ctx with
  | [] => none
  | (k', v) :: rest => if k' = k then some v else Context.Value rest k

/-- The derived context `context.WithValue(ctx, k, v)`. -/
def WithValue (ctx : Context) (k : Key) (v : Value) : Context :=
  (k, v) :: ctx

/-- What a handler call does: it panics, or it returns a context and an error (`none` is
nil) and leaves a world behind. -/
inductive Outcome where
  | panic (reason : String)
  | ret (ctx : Context) (err : Option Error) (w : World)

/-- The collaborators the package is given or imports. -/
structure Env where
  /-- The round-trip function `TestHTTP.MakeRequest`. -/
  MakeRequest : Addr → Heap → Except Error Response × Heap
  /-- The check `json.Valid`. -/
  jsonValid : String → Bool
  /-- The parser `url.Parse`. -/
  parseURL : String → Except Error String
  /-- The message of the error `assert.Equals` returns for unequal arguments. -/
  equalsMessage : String → String → String
  /-- The quoting `strconv.Quote` behind the verb `%q`. -/
  quote : String → String

/-! ## Standard library -/

/-- The byte range test `'A' <= c && c <= 'Z'`. -/
def isUpperByte (c : Char) : Bool :=
  decide (65 ≤ c.toNat ∧ c.toNat ≤ 90)

/-- The byte range test `'a' <= c && c <= 'z'`. -/
def isLowerByte (c : Char) : Bool :=
  decide (97 ≤ c.toNat ∧ c.toNat ≤ 122)

/-- The byte test `validHeaderFieldByte` of net/textproto, also the token table of
`httpguts.IsTokenRune`: the digits, the letters and the fifteen marks
``! # $ % & ' * + - . ^ _ ` | ~``, here by their codes. -/
def validHeaderFieldByte (c : Char) : Bool :=
  decide (48 ≤ c.toNat ∧ c.toNat ≤ 57) || isLowerByte c || isUpperByte c ||
    decide (c.toNat ∈ [33, 35, 36, 37, 38, 39, 42, 43, 45, 46, 94, 95, 96, 124, 126])

/-- One step of the second loop of `canonicalMIMEHeaderKey`: `c -= toLower` for a lower-case
letter where upper case is due, `c += toLower` for an upper-case letter elsewhere
(`toLower` is 32). -/
def canonByte (upper : Bool) (c : Char) : Char :=
  if upper && isLowerByte c then Char.ofNat (c.toNat - 32)
  else if !upper && isUpperByte c then Char.ofNat (c.toNat + 32)
  else c

/-- The second loop of `canonicalMIMEHeaderKey`: upper case for the first letter and for a
letter after a dash, lower case for the others. -/
def canonicalize : Bool → List Char → List Char
  | _, [] => []
  | upper, c :: cs => canonByte upper c :: canonicalize (canonByte upper c == '-') cs

/-- The first loop of `canonicalMIMEHeaderKey`: `none` when a byte is neither a header byte
nor a space, else whether a space was seen (`noCanon`). -/
def scanKey : Bool → List Char → Option Bool
  | noCanon, [] => some noCanon
  | noCanon, c :: cs =>
    if validHeaderFieldByte c then scanKey noCanon cs
    else if c = ' ' then scanKey true cs
    else none

/-- The function `canonicalMIMEHeaderKey` of net/textproto (the common-header table at its
end returns an equal string). -/
def canonicalMIMEHeaderKey (a : List Char) : List Char :=
  match scanKey false a with
  | none => a
  | some true => a
  | some false => canonicalize true a

/-- The quick check of `CanonicalMIMEHeaderKey`: walks `rest`, returns `s` at an invalid byte
or at the end, calls `canonicalMIMEHeaderKey` at the first letter of the wrong case. -/
def quickCheck (s : List Char) : Bool → List Char → List Char
  | _, [] => s
  | upper, c :: cs =>
    if !validHeaderFieldByte c then s
    else if upper && isLowerByte c then canonicalMIMEHeaderKey s
    else if !upper && isUpperByte c then canonicalMIMEHeaderKey s
    else quickCheck s (c == '-') cs

/-- The function `textproto.CanonicalMIMEHeaderKey`. -/
def CanonicalMIMEHeaderKey (s : String) : String :=
  ⟨quickCheck s.data true s.data⟩

/-- The method `Header.Values`: the values under the canonical form of `key`. -/
def Header.Values (h : Header) (key : String) : List String :=
  h.index (CanonicalMIMEHeaderKey key)

/-- The method `Header.Get`: the first value under the canonical form of `key`, the empty
string when there is none. -/
def Header.Get (h : Header) (key : String) : String :=
  match h.index (CanonicalMIMEHeaderKey key) with
  | [] => ""
  | v :: _ => v

/-- The method `Header.Add`: `h[key] = append(h[key], value)` at the canonical key; `none`
is the panic `assignment to entry in nil map` of a write to the nil map. -/
def Header.Add (h : Header) (key value : String) : Option Header :=
  match h with
  | .nil => none
  | .alloc m =>
    some (.alloc (fun k => if k = CanonicalMIMEHeaderKey key then m k ++ [value] else m k))

/-- The wrapper `ioutil.NopCloser(bytes.NewBuffer(b))`: a new reader over `b` that ends with
`io.EOF`. -/
def NewBuffer (h : Heap) (b : String) : Addr × Heap :=
  (h.readers.length, { h with readers := h.readers ++ [{ data := b, err := none }] })

/-- The call `ioutil.ReadAll(body)`: the bytes read, the error, and the heap with the reader
drained; `none` when `body` is nil (a panic). -/
def ReadAll (h : Heap) (body : Option Addr) : Option (String × Option Error × Heap) :=
  match body with
  | none => none
  | some a =>
    match h.readers[a]? with
    | none => none
    | some r => some (r.data, r.err, { h with readers := h.readers.set a { r with data := "" } })

/-- The check `validMethod` of net/http: a non-empty token. -/
def validMethod (method : String) : Bool :=
  method.data ≠ [] && method.data.all validHeaderFieldByte

/-- The constructor `http.NewRequest(method, url, nil)`: an error, or a pointer to a new
request with no header and a nil body. -/
def NewRequest (t : Env) (method url : String) (h : Heap) : Except Error Addr × Heap :=
  let method := if method = "" then "GET" else method
  if !validMethod method then
    (.error ⟨"net/http: invalid method " ++ t.quote method⟩, h)
  else
    match t.parseURL url with
    | .error e => (.error e, h)
    | .ok u =>
      (.ok h.requests.length,
        { h with requests := h.requests ++
            [{ Method := method, URL := u, Header := Header.empty, Body := none }] })

/-- The verb `%d` of fmt on an `int`: the decimal digits, after a minus sign for a negative
number. -/
def formatInt (n : Int) : String :=
  if n < 0 then "-" ++ Nat.repr n.natAbs else Nat.repr n.natAbs

/-- The helper `assert.Equals` on two strings. -/
def assertEquals (t : Env) (expected given : String) : Option Error :=
  if expected = given then none else some ⟨t.equalsMessage expected given⟩

/-- The call `t.tHTTP.MakeRequest(req)`, logged. -/
def MakeRequest (t : Env) (req : Addr) (w : World) : Except Error Response × World :=
  let res := t.MakeRequest req w.heap
  (res.1, { heap := res.2, trips := w.trips ++ [{ ptr := req, sent := w.heap.requests[req]? }] })

/-! ## The step handlers -/

/-- Handler of `I set request body to "..."` (setup.go, lines 46-51). -/
def iSetRequestBodyTo (ctx : Context) (body : String) (w : World) : Outcome :=
  match ctx.Value Key.RequestKey with
  | some (Value.request r) =>
    let (b, h) := NewBuffer w.heap body
    match h.requests[r]? with
    | none => .panic "nil pointer dereference"
    | some req =>
      let h := { h with requests := h.requests.set r { req with Body := some b } }
      .ret (WithValue ctx Key.RequestKey (Value.request r)) none { w with heap := h }
  | _ => .panic "interface conversion: not *http.Request"

/-- Handler of `I set request header "..." to "..."` (lines 53-59). -/
def iSetRequestSetTo (ctx : Context) (headerName value : String) (w : World) : Outcome :=
  match ctx.Value Key.RequestKey with
  | some (Value.request r) =>
    match w.heap.requests[r]? with
    | none => .panic "nil pointer dereference"
    | some req =>
      match req.Header.Add headerName value with
      | none => .panic "assignment to entry in nil map"
      | some hdr =>
        let h := { w.heap with requests := w.heap.requests.set r { req with Header := hdr } }
        .ret (WithValue ctx Key.RequestKey (Value.request r)) none { w with heap := h }
  | _ => .panic "interface conversion: not *http.Request"

/-- Handler of `the response header "..." equals "..."` (lines 61-66). -/
def responseHeaderEquals (t : Env) (ctx : Context) (headerName expected : String) (w : World) :
    Outcome :=
  match ctx.Value Key.ResponseKey with
  | some (Value.response resp) =>
    let given := resp.Header.Get headerName
    .ret ctx (assertEquals t expected given) w
  | _ => .panic "interface conversion: not testhttp.Response"

/-- Handler of `the request has body "..."` (lines 68-73). -/
def theRequestHasBody (ctx : Context) (body : String) (w : World) : Outcome :=
  match ctx.Value Key.RequestKey with
  | some (Value.request r) =>
    let (b, h) := NewBuffer w.heap body
    match h.requests[r]? with
    | none => .panic "nil pointer dereference"
    | some req =>
      let h := { h with requests := h.requests.set r { req with Body := some b } }
      .ret (WithValue ctx Key.RequestKey (Value.request r)) none { w with heap := h }
  | _ => .panic "interface conversion: not *http.Request"

/-- Handler of `I have a METHOD request "..."` (lines 75-83). -/
def iHaveARequest (t : Env) (ctx : Context) (method url : String) (w : World) : Outcome :=
  match NewRequest t method url w.heap with
  | (.error err, h) => .ret ctx (some err) { w with heap := h }
  | (.ok req, h) => .ret (WithValue ctx Key.RequestKey (Value.request req)) none { w with heap := h }

/-- Handler of `the response is "..."` (lines 85-98). -/
def theResponseIs (ctx : Context) (expectedResponse : String) (w : World) : Outcome :=
  match ctx.Value Key.ResponseKey with
  | some (Value.response resp) =>
    match ReadAll w.heap resp.Body with
    | none => .panic "nil pointer dereference"
    | some (body, err, h) =>
      let (b, h) := NewBuffer h body
      let resp := { resp with Body := some b }
      let ctx := WithValue ctx Key.ResponseKey (Value.response resp)
      match err with
      | some e => .ret ctx (some ⟨"an error while reading the body: " ++ e.msg⟩) { w with heap := h }
      | none =>
        if expectedResponse ≠ body then
          .ret ctx (some ⟨"the body doesn't contain a valid JSON"⟩) { w with heap := h }
        else .ret ctx none { w with heap := h }
  | _ => .panic "interface conversion: not testhttp.Response"

/-- Handler of `the response contains a valid JSON` (lines 100-113). -/
def validJSON (t : Env) (ctx : Context) (w : World) : Outcome :=
  match ctx.Value Key.ResponseKey with
  | some (Value.response resp) =>
    match ReadAll w.heap resp.Body with
    | none => .panic "nil pointer dereference"
    | some (body, err, h) =>
      let (b, h) := NewBuffer h body
      let resp := { resp with Body := some b }
      let ctx := WithValue ctx Key.ResponseKey (Value.response resp)
      match err with
      | some e => .ret ctx (some ⟨"an error while reading the body: " ++ e.msg⟩) { w with heap := h }
      | none =>
        if !t.jsonValid body then
          .ret ctx (some ⟨"the body doesn't contain a valid JSON"⟩) { w with heap := h }
        else .ret ctx none { w with heap := h }
  | _ => .panic "interface conversion: not testhttp.Response"

/-- Handler of `I make the request` (lines 115-124). -/
def iMakeRequest (t : Env) (ctx : Context) (w : World) : Outcome :=
  match ctx.Value Key.RequestKey with
  | some (Value.request req) =>
    match MakeRequest t req w with
    | (.error err, w) => .ret ctx (some err) w
    | (.ok resp, w) => .ret (WithValue ctx Key.ResponseKey (Value.response resp)) none w
  | _ => .panic "interface conversion: not *http.Request"

/-- Handler of `I make a METHOD request to "..."` (lines 126-139). -/
def makeRequest (t : Env) (ctx : Context) (method url : String) (w : World) : Outcome :=
  match NewRequest t method url w.heap with
  | (.error err, h) => .ret ctx (some err) { w with heap := h }
  | (.ok req, h) =>
    match MakeRequest t req { w with heap := h } with
    | (.error err, w) => .ret ctx (some err) w
    | (.ok resp, w) => .ret (WithValue ctx Key.ResponseKey (Value.response resp)) none w

/-- Handler of `the response code equals N` (lines 141-148). -/
def statusCodeEquals (ctx : Context) (expectedStatus : Int) (w : World) : Outcome :=
  match ctx.Value Key.ResponseKey with
  | some (Value.response resp) =>
    if expectedStatus ≠ resp.Code then
      .ret ctx (some ⟨"expected status code: " ++ formatInt expectedStatus ++ " but " ++
        formatInt resp.Code ++ " given"⟩) w
    else .ret ctx none w
  | _ => .panic "interface conversion: not testhttp.Response"

/-! ## Observations on outcomes -/

/-- Whether the handler panicked. -/
def Outcome.panics : Outcome → Bool
  | .panic _ => true
  | .ret _ _ _ => false

/-- The error a returned outcome carries (`some none` is the nil error); `none` for a
panic. -/
def Outcome.error : Outcome → Option (Option Error)
  | .ret _ err _ => some err
  | .panic _ => none

/-- The text `t` occurs in the text `s`. -/
def mentions (s t : String) : Prop := t.data <:+: s.data

instance (s t : String) : Decidable (mentions s t) := by
  unfold mentions
  infer_instance

/-- Equality of two texts up to the case of ASCII letters. -/
def equalFold (a b : String) : Prop :=
  a.data.map (canonByte false) = b.data.map (canonByte false)

instance (a b : String) : Decidable (equalFold a b) := by
  unfold equalFold
  infer_instance

/-! ## Test doubles -/

/-- A world with nothing on the heap and no round trip made. -/
def World.empty : World := ⟨⟨[], []⟩, []⟩

/-- A stand-in for the collaborators: the round trip answers 200 with the body `pong`, every
URL parses, only `[]` and `null` are taken for JSON. -/
def stubEnv : Env where
  MakeRequest := fun _ h => (.ok ⟨200, Header.empty, some (NewBuffer h "pong").1⟩, (NewBuffer h "pong").2)
  jsonValid := fun s => s = "[]" || s = "null"
  parseURL := fun u => .ok u
  equalsMessage := fun e g => "expected " ++ e ++ " but " ++ g ++ " given"
  quote := fun s => s

/-- A header map with the single entry `k: v`. -/
def headerOf (k v : String) : Header :=
  Header.alloc (fun k' => if k' = k then [v] else [])

/-- A world whose heap holds one request, at address 0. -/
def worldWithRequest (r : Request) : World := ⟨⟨[r], []⟩, []⟩

/-- A context whose Request slot holds the pointer 0. -/
def ctxWithRequest : Context := [(Key.RequestKey, Value.request 0)]

/-- A world whose heap holds one reader, at address 0, with the given unread bytes. -/
def worldWithBody (b : String) : World := ⟨⟨[], [⟨b, none⟩]⟩, []⟩

/-- A context whose Response slot holds a response with the given code and headers and the
body at address 0. -/
def ctxWithResponse (code : Int) (h : Header) : Context :=
  [(Key.ResponseKey, Value.response ⟨code, h, some 0⟩)]

/-! ## Lemmas on the standard library model -/

theorem Context.Value_WithValue_same (ctx : Context) (k : Key) (v : testhttp.Value) :
    (WithValue ctx k v).Value k = some v := by
  simp [WithValue, Context.Value]

theorem Context.Value_WithValue_other (ctx : Context) (k k' : Key) (v : testhttp.Value)
    (h : k ≠ k') : (WithValue ctx k v).Value k' = ctx.Value k' := by
  simp [WithValue, Context.Value, h]

/-- Outside ASCII no byte is a letter. -/
theorem not_letter_of_ge (c : Char) (h : 128 ≤ c.toNat) :
    isUpperByte c = false ∧ isLowerByte c = false := by
  constructor <;> simp [isUpperByte, isLowerByte] <;> omega

/-- A statement about every character follows from its ASCII instances and from the
characters outside ASCII. -/
theorem forall_char_of_ascii (P : Char → Prop) (hlo : ∀ n, n < 128 → P (Char.ofNat n))
    (hhi : ∀ c : Char, 128 ≤ c.toNat → P c) (c : Char) : P c := by
  by_cases h : c.toNat < 128
  · have := hlo c.toNat h
    rwa [Char.ofNat_toNat] at this
  · exact hhi c (by omega)

/-- The canonical form of a byte depends on the byte only up to letter case. -/
theorem canonByte_fold (upper : Bool) (c : Char) :
    canonByte upper (canonByte false c) = canonByte upper c := by
  revert upper
  refine forall_char_of_ascii (fun c => ∀ upper, canonByte upper (canonByte false c) = canonByte upper c) ?_ ?_ c
  · decide
  · intro c hc upper
    obtain ⟨h1, h2⟩ := not_letter_of_ge c hc
    simp [canonByte, h1, h2]

/-- Letter case does not decide whether a byte is a header byte. -/
theorem validHeaderFieldByte_fold (c : Char) :
    validHeaderFieldByte (canonByte false c) = validHeaderFieldByte c := by
  refine forall_char_of_ascii (fun c => validHeaderFieldByte (canonByte false c) = validHeaderFieldByte c) ?_ ?_ c
  · decide
  · intro c hc
    obtain ⟨h1, h2⟩ := not_letter_of_ge c hc
    simp [canonByte, h1, h2]

theorem scanKey_of_valid (a : List Char) (noCanon : Bool)
    (h : ∀ c ∈ a, validHeaderFieldByte c = true) : scanKey noCanon a = some noCanon := by
  induction a with
  | nil => rfl
  | cons c cs ih =>
    have hc := h c (List.mem_cons_self c cs)
    simp only [scanKey, hc, if_true]
    exact ih (fun d hd => h d (List.mem_cons_of_mem c hd))

theorem canonicalMIMEHeaderKey_of_valid (a : List Char)
    (h : ∀ c ∈ a, validHeaderFieldByte c = true) :
    canonicalMIMEHeaderKey a = canonicalize true a := by
  simp [canonicalMIMEHeaderKey, scanKey_of_valid a false h]

/-- On header bytes the quick check either reaches the end of a text that is already
canonical or hands over to `canonicalMIMEHeaderKey`. -/
theorem quickCheck_of_valid (s rest : List Char) (upper : Bool)
    (h : ∀ c ∈ rest, validHeaderFieldByte c = true) :
    (quickCheck s upper rest = s ∧ canonicalize upper rest = rest) ∨
      quickCheck s upper rest = canonicalMIMEHeaderKey s := by
  induction rest generalizing upper with
  | nil => exact Or.inl ⟨rfl, rfl⟩
  | cons c cs ih =>
    have hc := h c (List.mem_cons_self c cs)
    have hcs : ∀ d ∈ cs, validHeaderFieldByte d = true :=
      fun d hd => h d (List.mem_cons_of_mem c hd)
    by_cases h1 : (upper && isLowerByte c) = true
    · right
      simp [quickCheck, hc, h1]
    · by_cases h2 : (!upper && isUpperByte c) = true
      · right
        simp [quickCheck, hc, h1, h2]
      · have hb : canonByte upper c = c := by simp [canonByte, h1, h2]
        have hq : quickCheck s upper (c :: cs) = quickCheck s (c == '-') cs := by
          simp [quickCheck, hc, h1, h2]
        rcases ih (c == '-') hcs with ⟨e1, e2⟩ | e
        · left
          refine ⟨hq.trans e1, ?_⟩
          simp only [canonicalize, hb, e2]
        · right
          exact hq.trans e

/-- On a name made of header bytes `CanonicalMIMEHeaderKey` is the canonical form. -/
theorem CanonicalMIMEHeaderKey_of_valid (s : String)
    (h : ∀ c ∈ s.data, validHeaderFieldByte c = true) :
    CanonicalMIMEHeaderKey s = ⟨canonicalize true s.data⟩ := by
  have hk := canonicalMIMEHeaderKey_of_valid s.data h
  unfold CanonicalMIMEHeaderKey
  rcases quickCheck_of_valid s.data s.data true h with ⟨e1, e2⟩ | e
  · rw [e1, e2]
  · rw [e, hk]

theorem canonicalize_fold (a b : List Char) (upper : Bool)
    (h : a.map (canonByte false) = b.map (canonByte false)) :
    canonicalize upper a = canonicalize upper b := by
  induction a generalizing b upper with
  | nil =>
    cases b with
    | nil => rfl
    | cons d ds => simp at h
  | cons c cs ih =>
    cases b with
    | nil => simp at h
    | cons d ds =>
      simp only [List.map_cons, List.cons.injEq] at h
      have hcd : canonByte upper c = canonByte upper d := by
        rw [← canonByte_fold upper c, ← canonByte_fold upper d, h.1]
      simp only [canonicalize, hcd]
      rw [ih ds _ h.2]

theorem valid_of_fold (a b : List Char)
    (h : a.map (canonByte false) = b.map (canonByte false))
    (ha : ∀ c ∈ a, validHeaderFieldByte c = true) :
    ∀ c ∈ b, validHeaderFieldByte c = true := by
  induction a generalizing b with
  | nil =>
    cases b with
    | nil => simp
    | cons d ds => simp at h
  | cons c cs ih =>
    cases b with
    | nil => simp
    | cons d ds =>
      simp only [List.map_cons, List.cons.injEq] at h
      intro x hx
      rcases List.mem_cons.mp hx with rfl | hx
      · rw [← validHeaderFieldByte_fold, ← h.1, validHeaderFieldByte_fold]
        exact ha c (List.mem_cons_self c cs)
      · exact ih ds h.2 (fun y hy => ha y (List.mem_cons_of_mem c hy)) x hx

/-- Two names made of header bytes that agree up to letter case have one canonical key. -/
theorem CanonicalMIMEHeaderKey_equalFold (a b : String) (h : equalFold a b)
    (ha : ∀ c ∈ a.data, validHeaderFieldByte c = true) :
    CanonicalMIMEHeaderKey b = CanonicalMIMEHeaderKey a := by
  rw [CanonicalMIMEHeaderKey_of_valid a ha,
    CanonicalMIMEHeaderKey_of_valid b (valid_of_fold a.data b.data h ha),
    canonicalize_fold a.data b.data true h]

theorem mentions_middle (a b c : String) : mentions (a ++ b ++ c) b := by
  refine ⟨a.data, c.data, ?_⟩
  simp [String.data_append]

/-! ## The response code step -/

/-- C1 (counterexample): on the fresh, empty context `statusCodeEquals` with expected status
200 panics on the type assertion; it does not return a precondition error. -/
theorem statusCodeEquals_fresh_context_panics :
    (statusCodeEquals [] 200 World.empty).panics = true ∧
      ¬ ∃ ctx e w, statusCodeEquals [] 200 World.empty = Outcome.ret ctx (some e) w := by
  refine ⟨rfl, ?_⟩
  rintro ⟨ctx, e, w, h⟩
  simp [statusCodeEquals, Context.Value] at h

/-- C1 (amended): for every context whose Response slot has never been populated and every
expected status, `statusCodeEquals` panics on the unchecked type assertion: it returns
neither a context nor an error. -/
theorem statusCodeEquals_without_response_panics (ctx : Context) (expectedStatus : Int)
    (w : World) (h : ctx.Value Key.ResponseKey = none) :
    (statusCodeEquals ctx expectedStatus w).panics = true ∧
      (statusCodeEquals ctx expectedStatus w).error = none := by
  simp [statusCodeEquals, h, Outcome.panics, Outcome.error]

/-- C1 (witness): a context that holds a request but no response. -/
theorem statusCodeEquals_without_response_panics_witness :
    Context.Value [(Key.RequestKey, Value.request 0)] Key.ResponseKey = none ∧
      (statusCodeEquals [(Key.RequestKey, Value.request 0)] 404 World.empty).panics = true ∧
      (statusCodeEquals [(Key.RequestKey, Value.request 0)] 404 World.empty).error = none :=
  ⟨rfl, statusCodeEquals_without_response_panics _ 404 World.empty rfl⟩

/-- C4: with a response of status code `C` in the Response slot, `statusCodeEquals` with
expected status `N` returns the input context (and world); its error is nil exactly when
`N = C`, and when `N` differs from `C` the message contains the decimal renderings of both. -/
theorem statusCodeEquals_spec (ctx : Context) (resp : Response) (N : Int) (w : World)
    (h : ctx.Value Key.ResponseKey = some (Value.response resp)) :
    (∃ err, statusCodeEquals ctx N w = Outcome.ret ctx err w ∧
      (err = none ↔ N = resp.Code) ∧
      (N ≠ resp.Code → ∃ e, err = some e ∧ mentions e.msg (formatInt N) ∧
        mentions e.msg (formatInt resp.Code))) := by
  by_cases hN : N = resp.Code
  · exact ⟨none, by simp [statusCodeEquals, h, hN], by simp [hN], fun hne => absurd hN hne⟩
  · refine ⟨some ⟨"expected status code: " ++ formatInt N ++ " but " ++ formatInt resp.Code ++
        " given"⟩, by simp only [statusCodeEquals, h, ne_eq, hN, not_false_eq_true, if_true],
      by simp [hN], fun _ => ⟨_, rfl, ?_, ?_⟩⟩
    · have := mentions_middle "expected status code: " (formatInt N)
        (" but " ++ formatInt resp.Code ++ " given")
      simpa [String.append_assoc] using this
    · have := mentions_middle ("expected status code: " ++ formatInt N ++ " but ")
        (formatInt resp.Code) " given"
      simpa [String.append_assoc] using this

/-- C4 (witness): stored code 404; expecting 200 fails with a message that contains `200`
and `404`, expecting 404 succeeds. -/
theorem statusCodeEquals_spec_witness :
    Context.Value (ctxWithResponse 404 Header.empty) Key.ResponseKey =
        some (Value.response ⟨404, Header.empty, some 0⟩) ∧
      formatInt 200 = "200" ∧ formatInt 404 = "404" ∧
      (∃ err, statusCodeEquals (ctxWithResponse 404 Header.empty) 200 World.empty =
          Outcome.ret (ctxWithResponse 404 Header.empty) err World.empty ∧
        (err = none ↔ (200 : Int) = 404) ∧
        ((200 : Int) ≠ 404 → ∃ e, err = some e ∧ mentions e.msg (formatInt 200) ∧
          mentions e.msg (formatInt 404))) ∧
      (∃ err, statusCodeEquals (ctxWithResponse 404 Header.empty) 404 World.empty =
          Outcome.ret (ctxWithResponse 404 Header.empty) err World.empty ∧
        (err = none ↔ (404 : Int) = 404) ∧
        ((404 : Int) ≠ 404 → ∃ e, err = some e ∧ mentions e.msg (formatInt 404) ∧
          mentions e.msg (formatInt 404))) :=
  ⟨rfl, by decide, by decide,
    statusCodeEquals_spec (ctxWithResponse 404 Header.empty) ⟨404, Header.empty, some 0⟩ 200
      World.empty rfl,
    statusCodeEquals_spec (ctxWithResponse 404 Header.empty) ⟨404, Header.empty, some 0⟩ 404
      World.empty rfl⟩

/-! ## The response body step: the mismatch message -/

/-- C3 (the code at the failing input): with the body `pong` stored and `ping` expected,
`theResponseIs` returns the error `the body doesn't contain a valid JSON`, a message that
contains neither the expected nor the actual text. -/
theorem theResponseIs_mismatch_message :
    (theResponseIs (ctxWithResponse 200 Header.empty) "ping" (worldWithBody "pong")).error =
        some (some ⟨"the body doesn't contain a valid JSON"⟩) ∧
      ¬ mentions "the body doesn't contain a valid JSON" "ping" ∧
      ¬ mentions "the body doesn't contain a valid JSON" "pong" := by
  refine ⟨?_, by decide, by decide⟩
  decide

/-! ## The response header step -/

/-- C6 (counterexample): for a response without any header, `responseHeaderEquals` with the
name `X-Missing` and the empty string as the value returns a nil error. -/
theorem responseHeaderEquals_missing_header_empty_value :
    Header.Values Header.empty "X-Missing" = [] ∧
      responseHeaderEquals stubEnv (ctxWithResponse 200 Header.empty) "X-Missing" ""
          World.empty =
        Outcome.ret (ctxWithResponse 200 Header.empty) none World.empty := by
  refine ⟨rfl, ?_⟩
  simp [responseHeaderEquals, ctxWithResponse, Context.Value, Header.Get, Header.empty,
    Header.index,
    assertEquals]

/-- C6 (amended): with a response in the Response slot, `responseHeaderEquals` returns the
input context, and a nil error exactly when `Header.Get(NAME)`, the first value of header
`NAME` or the empty string when the response has no such header, equals `VALUE`; so for a
response with no header `NAME` the step succeeds for the empty `VALUE` and fails for every
other one. -/
theorem responseHeaderEquals_spec (t : Env) (ctx : Context) (resp : Response)
    (NAME VALUE : String) (w : World)
    (h : ctx.Value Key.ResponseKey = some (Value.response resp)) :
    ∃ err, responseHeaderEquals t ctx NAME VALUE w = Outcome.ret ctx err w ∧
      (err = none ↔ VALUE = (resp.Header.Values NAME).headD "") ∧
      (resp.Header.Values NAME = [] → (err = none ↔ VALUE = "")) := by
  have hget : resp.Header.Get NAME = (resp.Header.Values NAME).headD "" := by
    unfold Header.Get Header.Values
    cases resp.Header.index (CanonicalMIMEHeaderKey NAME) <;> rfl
  refine ⟨assertEquals t VALUE (resp.Header.Get NAME), by simp [responseHeaderEquals, h], ?_, ?_⟩
  · rw [← hget]
    by_cases hv : VALUE = resp.Header.Get NAME <;> simp [assertEquals, hv]
  · intro hnone
    have : resp.Header.Get NAME = "" := by rw [hget, hnone]; rfl
    rw [this]
    by_cases hv : VALUE = "" <;> simp [assertEquals, hv]

/-- C6 (witness): the response holds `Content-Type: application/json` and no `Accept`. -/
theorem responseHeaderEquals_spec_witness :
    Context.Value (ctxWithResponse 200 (headerOf "Content-Type" "application/json"))
        Key.ResponseKey =
        some (Value.response ⟨200, headerOf "Content-Type" "application/json", some 0⟩) ∧
      ∃ err, responseHeaderEquals stubEnv
          (ctxWithResponse 200 (headerOf "Content-Type" "application/json")) "Accept" "text/html"
          World.empty =
        Outcome.ret (ctxWithResponse 200 (headerOf "Content-Type" "application/json")) err
          World.empty ∧
      (err = none ↔
        "text/html" = ((headerOf "Content-Type" "application/json").Values "Accept").headD "") ∧
      ((headerOf "Content-Type" "application/json").Values "Accept" = [] →
        (err = none ↔ "text/html" = "")) :=
  ⟨rfl, responseHeaderEquals_spec stubEnv _ ⟨200, headerOf "Content-Type" "application/json", some 0⟩
    "Accept" "text/html" World.empty rfl⟩

/-- C7 (counterexample): the response holds header `X Y` with value `v`; the name `x y`
equals `X Y` up to letter case, yet `responseHeaderEquals` with `x y` and `v` returns an
error: a name with a space is looked up as it is written. -/
theorem responseHeaderEquals_space_name_case_sensitive :
    Header.Values (headerOf "X Y" "v") "X Y" = ["v"] ∧ equalFold "X Y" "x y" ∧
      (responseHeaderEquals stubEnv (ctxWithResponse 200 (headerOf "X Y" "v")) "x y" "v"
        World.empty).error = some (some ⟨stubEnv.equalsMessage "v" ""⟩) := by
  refine ⟨by decide, by decide, by decide⟩

/-- C7 (amended): when the response has a header `H` with first value `V`, `H` consists of
header-token bytes only (letters, digits and the marks of `validHeaderFieldByte`), and
`NAME` equals `H` up to the case of ASCII letters, `responseHeaderEquals(ctx, NAME, V)`
returns a nil error and the input context unchanged. -/
theorem responseHeaderEquals_case_insensitive (t : Env) (ctx : Context) (resp : Response)
    (H NAME V : String) (rest : List String) (w : World)
    (hslot : ctx.Value Key.ResponseKey = some (Value.response resp))
    (hstored : resp.Header.Values H = V :: rest)
    (hvalid : ∀ c ∈ H.data, validHeaderFieldByte c = true)
    (hfold : equalFold H NAME) :
    responseHeaderEquals t ctx NAME V w = Outcome.ret ctx none w := by
  have hkey := CanonicalMIMEHeaderKey_equalFold H NAME hfold hvalid
  have hget : resp.Header.Get NAME = V := by
    unfold Header.Get
    unfold Header.Values at hstored
    rw [hkey, hstored]
  simp [responseHeaderEquals, hslot, hget, assertEquals]

/-- C7 (witness): stored header `Content-Type: application/json`, asserted as
`content-type` equals `application/json`. -/
theorem responseHeaderEquals_case_insensitive_witness :
    Header.Values (headerOf "Content-Type" "application/json") "Content-Type" =
        ["application/json"] ∧
      equalFold "Content-Type" "content-type" ∧
      responseHeaderEquals stubEnv
          (ctxWithResponse 200 (headerOf "Content-Type" "application/json")) "content-type"
          "application/json" World.empty =
        Outcome.ret (ctxWithResponse 200 (headerOf "Content-Type" "application/json")) none
          World.empty :=
  ⟨by decide, by decide,
    responseHeaderEquals_case_insensitive stubEnv _
      ⟨200, headerOf "Content-Type" "application/json", some 0⟩ "Content-Type" "content-type"
      "application/json" [] World.empty rfl (by decide) (by decide) (by decide)⟩

/-! ## The request construction steps -/

theorem iSetRequestSetTo_eq (ctx : Context) (p : Addr) (req : Request) (X A : String)
    (hdr : Header) (w : World) (hslot : ctx.Value Key.RequestKey = some (Value.request p))
    (hreq : w.heap.requests[p]? = some req) (hadd : req.Header.Add X A = some hdr) :
    iSetRequestSetTo ctx X A w =
      Outcome.ret (WithValue ctx Key.RequestKey (Value.request p)) none
        { w with heap := { w.heap with
            requests := w.heap.requests.set p { req with Header := hdr } } } := by
  simp only [iSetRequestSetTo, hslot, hreq, hadd]

theorem getElem?_set_of_some {α : Type} (l : List α) (i : Nat) (a b : α) (h : l[i]? = some a) :
    (l.set i b)[i]? = some b := by
  have hi : i < l.length := (List.getElem?_eq_some.mp h).1
  simp [hi]

/-- C5 (counterexample): the Request slot holds a request whose header map is the nil map
(a zero `http.Request`); `iSetRequestSetTo` for header `X` and value `a` panics on the write
to the nil map, so there is no resulting context and no request with `X: a`. -/
theorem iSetRequestSetTo_nil_header_panics :
    Context.Value ctxWithRequest Key.RequestKey = some (Value.request 0) ∧
      (worldWithRequest ⟨"GET", "/items", Header.nil, none⟩).heap.requests[0]? =
        some ⟨"GET", "/items", Header.nil, none⟩ ∧
      iSetRequestSetTo ctxWithRequest "X" "a"
          (worldWithRequest ⟨"GET", "/items", Header.nil, none⟩) =
        Outcome.panic "assignment to entry in nil map" :=
  ⟨rfl, rfl, rfl⟩

/-- C5 (amended): with a request in the Request slot whose header map is allocated,
`iSetRequestSetTo` for header `X` and value `A` followed by `iSetRequestSetTo` for `X` and
`B` both return a nil error, and the request the Request slot then points to has under
header `X` the earlier values followed by `A` and then `B`; every other key of the header
map, the method, the URL and the body are as before. -/
theorem iSetRequestSetTo_twice (ctx : Context) (p : Addr) (req : Request) (X A B : String)
    (m : String → List String) (w : World)
    (hslot : ctx.Value Key.RequestKey = some (Value.request p))
    (hreq : w.heap.requests[p]? = some req) (hmap : req.Header = Header.alloc m) :
    ∃ ctx1 w1 ctx2 w2 req2,
      iSetRequestSetTo ctx X A w = Outcome.ret ctx1 none w1 ∧
      iSetRequestSetTo ctx1 X B w1 = Outcome.ret ctx2 none w2 ∧
      ctx2.Value Key.RequestKey = some (Value.request p) ∧
      w2.heap.requests[p]? = some req2 ∧
      req2.Header.Values X = req.Header.Values X ++ [A, B] ∧
      (∀ k, k ≠ CanonicalMIMEHeaderKey X → req2.Header.index k = req.Header.index k) ∧
      req2.Method = req.Method ∧ req2.URL = req.URL ∧ req2.Body = req.Body := by
  have a1 : req.Header.Add X A = some (Header.alloc
      (fun k => if k = CanonicalMIMEHeaderKey X then m k ++ [A] else m k)) := by
    rw [hmap]
    rfl
  have e1 := iSetRequestSetTo_eq ctx p req X A _ w hslot hreq a1
  have e2 := iSetRequestSetTo_eq (WithValue ctx Key.RequestKey (Value.request p)) p
    ⟨req.Method, req.URL,
      Header.alloc (fun k => if k = CanonicalMIMEHeaderKey X then m k ++ [A] else m k),
      req.Body⟩ X B
    (Header.alloc (fun k => if k = CanonicalMIMEHeaderKey X
      then (if k = CanonicalMIMEHeaderKey X then m k ++ [A] else m k) ++ [B]
      else (if k = CanonicalMIMEHeaderKey X then m k ++ [A] else m k)))
    ⟨⟨w.heap.requests.set p ⟨req.Method, req.URL,
        Header.alloc (fun k => if k = CanonicalMIMEHeaderKey X then m k ++ [A] else m k),
        req.Body⟩, w.heap.readers⟩, w.trips⟩
    (Context.Value_WithValue_same _ _ _) (getElem?_set_of_some _ _ _ _ hreq) rfl
  refine ⟨_, _, _, _, _, e1, e2, Context.Value_WithValue_same _ _ _,
    getElem?_set_of_some _ _ _ _ (getElem?_set_of_some _ _ _ _ hreq), ?_, ?_, rfl, rfl, rfl⟩
  · simp [Header.Values, Header.index, hmap]
  · intro k hk
    simp [Header.index, hmap, hk]

/-- C5 (witness): a POST request that already holds `Accept: text/html`, then `Accept` set
to `a` and to `b`. -/
theorem iSetRequestSetTo_twice_witness :
    Context.Value ctxWithRequest Key.RequestKey = some (Value.request 0) ∧
      ∃ ctx1 w1 ctx2 w2 req2,
        iSetRequestSetTo ctxWithRequest "accept" "a"
            (worldWithRequest ⟨"POST", "/items", headerOf "Accept" "text/html", none⟩) =
          Outcome.ret ctx1 none w1 ∧
        iSetRequestSetTo ctx1 "accept" "b" w1 = Outcome.ret ctx2 none w2 ∧
        ctx2.Value Key.RequestKey = some (Value.request 0) ∧
        w2.heap.requests[0]? = some req2 ∧
        req2.Header.Values "accept" =
          (headerOf "Accept" "text/html").Values "accept" ++ ["a", "b"] ∧
        (∀ k, k ≠ CanonicalMIMEHeaderKey "accept" →
          req2.Header.index k = (headerOf "Accept" "text/html").index k) ∧
        req2.Method = "POST" ∧ req2.URL = "/items" ∧ req2.Body = none :=
  ⟨rfl, iSetRequestSetTo_twice ctxWithRequest 0
    ⟨"POST", "/items", headerOf "Accept" "text/html", none⟩ "accept" "a" "b" _ _ rfl rfl rfl⟩

theorem iSetRequestBodyTo_eq (ctx : Context) (p : Addr) (req : Request) (body : String)
    (w : World) (hslot : ctx.Value Key.RequestKey = some (Value.request p))
    (hreq : w.heap.requests[p]? = some req) :
    iSetRequestBodyTo ctx body w =
      Outcome.ret (WithValue ctx Key.RequestKey (Value.request p)) none
        { w with heap :=
            { requests := w.heap.requests.set p { req with Body := some w.heap.readers.length },
              readers := w.heap.readers ++ [{ data := body, err := none }] } } := by
  simp only [iSetRequestBodyTo, hslot, NewBuffer, hreq]

/-- C10: `iSetRequestBodyTo` and `theRequestHasBody` are one function; with a request in
the Request slot, a body-set step with `B1` followed by a body-set step with `B2` (each of
them either handler) both return a nil error, and the request the Request slot then points
to has a body that reads as exactly `B2`, with method, URL and headers as before. -/
theorem body_set_twice (s1 s2 : Context → String → World → Outcome)
    (ctx : Context) (p : Addr) (req : Request) (B1 B2 : String) (w : World)
    (h1 : s1 = iSetRequestBodyTo ∨ s1 = theRequestHasBody)
    (h2 : s2 = iSetRequestBodyTo ∨ s2 = theRequestHasBody)
    (hslot : ctx.Value Key.RequestKey = some (Value.request p))
    (hreq : w.heap.requests[p]? = some req) :
    iSetRequestBodyTo = theRequestHasBody ∧
    ∃ ctx1 w1 ctx2 w2 req2,
      s1 ctx B1 w = Outcome.ret ctx1 none w1 ∧
      s2 ctx1 B2 w1 = Outcome.ret ctx2 none w2 ∧
      ctx2.Value Key.RequestKey = some (Value.request p) ∧
      w2.heap.requests[p]? = some req2 ∧
      (∃ h, ReadAll w2.heap req2.Body = some (B2, none, h)) ∧
      req2.Method = req.Method ∧ req2.URL = req.URL ∧ req2.Header = req.Header := by
  have hsame : iSetRequestBodyTo = theRequestHasBody := rfl
  have hs1 : s1 = iSetRequestBodyTo := h1.elim id (fun h => h.trans hsame.symm)
  have hs2 : s2 = iSetRequestBodyTo := h2.elim id (fun h => h.trans hsame.symm)
  subst hs1 hs2
  have e1 := iSetRequestBodyTo_eq ctx p req B1 w hslot hreq
  have e2 := iSetRequestBodyTo_eq (WithValue ctx Key.RequestKey (Value.request p)) p
    { req with Body := some w.heap.readers.length } B2
    { w with heap :=
        { requests := w.heap.requests.set p { req with Body := some w.heap.readers.length },
          readers := w.heap.readers ++ [{ data := B1, err := none }] } }
    (Context.Value_WithValue_same _ _ _) (getElem?_set_of_some _ _ _ _ hreq)
  refine ⟨hsame, _, _, _, _, _, e1, e2, Context.Value_WithValue_same _ _ _,
    getElem?_set_of_some _ _ _ _ (getElem?_set_of_some _ _ _ _ hreq), ?_, rfl, rfl, rfl⟩
  simp only [ReadAll, List.getElem?_concat_length]
  exact ⟨_, rfl⟩

/-- C10 (witness): a POST request whose body is set to `first` by `iSetRequestBodyTo` and
then to `second` by `theRequestHasBody`. -/
theorem body_set_twice_witness :
    Context.Value ctxWithRequest Key.RequestKey = some (Value.request 0) ∧
    iSetRequestBodyTo = theRequestHasBody ∧
    ∃ ctx1 w1 ctx2 w2 req2,
      iSetRequestBodyTo ctxWithRequest "first"
          (worldWithRequest ⟨"POST", "/items", Header.empty, none⟩) =
        Outcome.ret ctx1 none w1 ∧
      theRequestHasBody ctx1 "second" w1 = Outcome.ret ctx2 none w2 ∧
      ctx2.Value Key.RequestKey = some (Value.request 0) ∧
      w2.heap.requests[0]? = some req2 ∧
      (∃ h, ReadAll w2.heap req2.Body = some ("second", none, h)) ∧
      req2.Method = "POST" ∧ req2.URL = "/items" ∧ req2.Header = Header.empty :=
  ⟨rfl, body_set_twice iSetRequestBodyTo theRequestHasBody ctxWithRequest 0
    ⟨"POST", "/items", Header.empty, none⟩ "first" "second" _ (Or.inl rfl) (Or.inr rfl) rfl rfl⟩

/-! ## The request execution steps -/

/-- C8: with the pointer `p` to a request in the Request slot, `iMakeRequest` hands `p` to
the round-trip function exactly once; when that returns an error `e`, the handler returns
exactly `e` with the input context; when it returns a response, the handler returns a nil
error and a context whose Response slot holds that response and whose Request slot still
holds `p`. -/
theorem iMakeRequest_spec (t : Env) (ctx : Context) (p : Addr) (w : World)
    (hslot : ctx.Value Key.RequestKey = some (Value.request p)) :
    (∀ e h, t.MakeRequest p w.heap = (Except.error e, h) →
      iMakeRequest t ctx w =
        Outcome.ret ctx (some e) ⟨h, w.trips ++ [⟨p, w.heap.requests[p]?⟩]⟩) ∧
    (∀ resp h, t.MakeRequest p w.heap = (Except.ok resp, h) →
      ∃ ctx', iMakeRequest t ctx w =
          Outcome.ret ctx' none ⟨h, w.trips ++ [⟨p, w.heap.requests[p]?⟩]⟩ ∧
        ctx'.Value Key.ResponseKey = some (Value.response resp) ∧
        ctx'.Value Key.RequestKey = some (Value.request p)) := by
  constructor
  · intro e h hf
    simp [iMakeRequest, hslot, MakeRequest, hf]
  · intro resp h hf
    refine ⟨WithValue ctx Key.ResponseKey (Value.response resp), ?_,
      Context.Value_WithValue_same _ _ _, ?_⟩
    · simp [iMakeRequest, hslot, MakeRequest, hf]
    · rw [Context.Value_WithValue_other _ _ _ _ (by decide), hslot]

/-- C8 (witness): the stub round trip on a stored GET request. -/
theorem iMakeRequest_spec_witness :
    Context.Value ctxWithRequest Key.RequestKey = some (Value.request 0) ∧
    (∀ e h, stubEnv.MakeRequest 0 (worldWithRequest ⟨"GET", "/ping", Header.empty, none⟩).heap =
        (Except.error e, h) →
      iMakeRequest stubEnv ctxWithRequest (worldWithRequest ⟨"GET", "/ping", Header.empty, none⟩) =
        Outcome.ret ctxWithRequest (some e)
          ⟨h, [⟨0, some ⟨"GET", "/ping", Header.empty, none⟩⟩]⟩) ∧
    (∀ resp h, stubEnv.MakeRequest 0 (worldWithRequest ⟨"GET", "/ping", Header.empty, none⟩).heap =
        (Except.ok resp, h) →
      ∃ ctx', iMakeRequest stubEnv ctxWithRequest
            (worldWithRequest ⟨"GET", "/ping", Header.empty, none⟩) =
          Outcome.ret ctx' none ⟨h, [⟨0, some ⟨"GET", "/ping", Header.empty, none⟩⟩]⟩ ∧
        ctx'.Value Key.ResponseKey = some (Value.response resp) ∧
        ctx'.Value Key.RequestKey = some (Value.request 0)) :=
  ⟨rfl, iMakeRequest_spec stubEnv ctxWithRequest 0
    (worldWithRequest ⟨"GET", "/ping", Header.empty, none⟩) rfl⟩

theorem makeRequest_of_invalid_method (t : Env) (ctx : Context) (method url : String)
    (w : World) (hm : validMethod (if method = "" then "GET" else method) = false) :
    makeRequest t ctx method url w =
      Outcome.ret ctx
        (some ⟨"net/http: invalid method " ++ t.quote (if method = "" then "GET" else method)⟩)
        w := by
  simp [makeRequest, NewRequest, hm]

theorem makeRequest_of_parse_error (t : Env) (ctx : Context) (method url : String)
    (w : World) (e : Error) (hm : validMethod (if method = "" then "GET" else method) = true)
    (hu : t.parseURL url = Except.error e) :
    makeRequest t ctx method url w = Outcome.ret ctx (some e) w := by
  simp [makeRequest, NewRequest, hm, hu]

theorem makeRequest_of_trip_error (t : Env) (ctx : Context) (method url u : String)
    (w : World) (e : Error) (h : Heap)
    (hm : validMethod (if method = "" then "GET" else method) = true)
    (hu : t.parseURL url = Except.ok u)
    (hf : t.MakeRequest w.heap.requests.length
        ⟨w.heap.requests ++ [⟨if method = "" then "GET" else method, u, Header.empty, none⟩],
          w.heap.readers⟩ = (Except.error e, h)) :
    makeRequest t ctx method url w =
      Outcome.ret ctx (some e)
        ⟨h, w.trips ++ [⟨w.heap.requests.length,
          some ⟨if method = "" then "GET" else method, u, Header.empty, none⟩⟩]⟩ := by
  simp [makeRequest, NewRequest, hm, hu, MakeRequest, hf]

theorem makeRequest_of_trip_ok (t : Env) (ctx : Context) (method url u : String)
    (w : World) (resp : Response) (h : Heap)
    (hm : validMethod (if method = "" then "GET" else method) = true)
    (hu : t.parseURL url = Except.ok u)
    (hf : t.MakeRequest w.heap.requests.length
        ⟨w.heap.requests ++ [⟨if method = "" then "GET" else method, u, Header.empty, none⟩],
          w.heap.readers⟩ = (Except.ok resp, h)) :
    makeRequest t ctx method url w =
      Outcome.ret (WithValue ctx Key.ResponseKey (Value.response resp)) none
        ⟨h, w.trips ++ [⟨w.heap.requests.length,
          some ⟨if method = "" then "GET" else method, u, Header.empty, none⟩⟩]⟩ := by
  simp [makeRequest, NewRequest, hm, hu, MakeRequest, hf]

/-- C9: `makeRequest` never reads the context. Run on any two contexts in one world it
returns the same error and leaves the same world, and each returned context keeps the
Request slot of its input. When `http.NewRequest` rejects the method or the URL, that error
is returned with the input contexts and no round trip is made. Otherwise the round-trip
function is called exactly once, on a pointer that was not on the heap before, to a request
with the given method (`GET` for the empty one), the parsed URL, no header and a nil body;
its error is returned with the input contexts, or its response is the Response slot of both
returned contexts. -/
theorem makeRequest_ignores_request_slot (t : Env) (method url : String) (w : World)
    (ctx1 ctx2 : Context) :
    (validMethod (if method = "" then "GET" else method) = false →
      makeRequest t ctx1 method url w =
        Outcome.ret ctx1
          (some ⟨"net/http: invalid method " ++ t.quote (if method = "" then "GET" else method)⟩)
          w ∧
      makeRequest t ctx2 method url w =
        Outcome.ret ctx2
          (some ⟨"net/http: invalid method " ++ t.quote (if method = "" then "GET" else method)⟩)
          w) ∧
    (validMethod (if method = "" then "GET" else method) = true →
      ∀ e, t.parseURL url = Except.error e →
        makeRequest t ctx1 method url w = Outcome.ret ctx1 (some e) w ∧
        makeRequest t ctx2 method url w = Outcome.ret ctx2 (some e) w) ∧
    (validMethod (if method = "" then "GET" else method) = true →
      ∀ u, t.parseURL url = Except.ok u →
        w.heap.requests[w.heap.requests.length]? = none ∧
        (∀ e h, t.MakeRequest w.heap.requests.length
            ⟨w.heap.requests ++ [⟨if method = "" then "GET" else method, u, Header.empty, none⟩],
              w.heap.readers⟩ = (Except.error e, h) →
          makeRequest t ctx1 method url w =
            Outcome.ret ctx1 (some e)
              ⟨h, w.trips ++ [⟨w.heap.requests.length,
                some ⟨if method = "" then "GET" else method, u, Header.empty, none⟩⟩]⟩ ∧
          makeRequest t ctx2 method url w =
            Outcome.ret ctx2 (some e)
              ⟨h, w.trips ++ [⟨w.heap.requests.length,
                some ⟨if method = "" then "GET" else method, u, Header.empty, none⟩⟩]⟩) ∧
        (∀ resp h, t.MakeRequest w.heap.requests.length
            ⟨w.heap.requests ++ [⟨if method = "" then "GET" else method, u, Header.empty, none⟩],
              w.heap.readers⟩ = (Except.ok resp, h) →
          makeRequest t ctx1 method url w =
            Outcome.ret (WithValue ctx1 Key.ResponseKey (Value.response resp)) none
              ⟨h, w.trips ++ [⟨w.heap.requests.length,
                some ⟨if method = "" then "GET" else method, u, Header.empty, none⟩⟩]⟩ ∧
          makeRequest t ctx2 method url w =
            Outcome.ret (WithValue ctx2 Key.ResponseKey (Value.response resp)) none
              ⟨h, w.trips ++ [⟨w.heap.requests.length,
                some ⟨if method = "" then "GET" else method, u, Header.empty, none⟩⟩]⟩ ∧
          (WithValue ctx1 Key.ResponseKey (Value.response resp)).Value Key.ResponseKey =
            some (Value.response resp) ∧
          (WithValue ctx2 Key.ResponseKey (Value.response resp)).Value Key.ResponseKey =
            some (Value.response resp) ∧
          (WithValue ctx1 Key.ResponseKey (Value.response resp)).Value Key.RequestKey =
            ctx1.Value Key.RequestKey ∧
          (WithValue ctx2 Key.ResponseKey (Value.response resp)).Value Key.RequestKey =
            ctx2.Value Key.RequestKey)) := by
  refine ⟨fun hm => ⟨makeRequest_of_invalid_method t ctx1 method url w hm,
      makeRequest_of_invalid_method t ctx2 method url w hm⟩,
    fun hm e hu => ⟨makeRequest_of_parse_error t ctx1 method url w e hm hu,
      makeRequest_of_parse_error t ctx2 method url w e hm hu⟩,
    fun hm u hu => ⟨by simp, fun e h hf => ?_, fun resp h hf => ?_⟩⟩
  · exact ⟨makeRequest_of_trip_error t ctx1 method url u w e h hm hu hf,
      makeRequest_of_trip_error t ctx2 method url u w e h hm hu hf⟩
  · exact ⟨makeRequest_of_trip_ok t ctx1 method url u w resp h hm hu hf,
      makeRequest_of_trip_ok t ctx2 method url u w resp h hm hu hf,
      Context.Value_WithValue_same _ _ _, Context.Value_WithValue_same _ _ _,
      Context.Value_WithValue_other _ _ _ _ (by decide),
      Context.Value_WithValue_other _ _ _ _ (by decide)⟩

/-- C9 (witness): `GET /ping` through the stub round trip, once on a context whose Request
slot holds a POST request with an `Accept` header and once on the empty context: the same
header-less GET request is sent, the same response is stored, and the Request slots stay
as they were. -/
theorem makeRequest_ignores_request_slot_witness :
    makeRequest stubEnv ctxWithRequest "GET" "/ping"
        (worldWithRequest ⟨"POST", "/items", headerOf "Accept" "text/html", none⟩) =
      Outcome.ret (WithValue ctxWithRequest Key.ResponseKey
          (Value.response ⟨200, Header.empty, some 0⟩)) none
        ⟨⟨[⟨"POST", "/items", headerOf "Accept" "text/html", none⟩,
            ⟨"GET", "/ping", Header.empty, none⟩], [⟨"pong", none⟩]⟩,
          [⟨1, some ⟨"GET", "/ping", Header.empty, none⟩⟩]⟩ ∧
    makeRequest stubEnv [] "GET" "/ping"
        (worldWithRequest ⟨"POST", "/items", headerOf "Accept" "text/html", none⟩) =
      Outcome.ret (WithValue [] Key.ResponseKey
          (Value.response ⟨200, Header.empty, some 0⟩)) none
        ⟨⟨[⟨"POST", "/items", headerOf "Accept" "text/html", none⟩,
            ⟨"GET", "/ping", Header.empty, none⟩], [⟨"pong", none⟩]⟩,
          [⟨1, some ⟨"GET", "/ping", Header.empty, none⟩⟩]⟩ ∧
    (WithValue ctxWithRequest Key.ResponseKey
        (Value.response ⟨200, Header.empty, some 0⟩)).Value Key.ResponseKey =
      some (Value.response ⟨200, Header.empty, some 0⟩) ∧
    (WithValue [] Key.ResponseKey
        (Value.response ⟨200, Header.empty, some 0⟩)).Value Key.ResponseKey =
      some (Value.response ⟨200, Header.empty, some 0⟩) ∧
    (WithValue ctxWithRequest Key.ResponseKey
        (Value.response ⟨200, Header.empty, some 0⟩)).Value Key.RequestKey =
      Context.Value ctxWithRequest Key.RequestKey ∧
    (WithValue [] Key.ResponseKey
        (Value.response ⟨200, Header.empty, some 0⟩)).Value Key.RequestKey =
      Context.Value [] Key.RequestKey :=
  ((makeRequest_ignores_request_slot stubEnv "GET" "/ping"
    (worldWithRequest ⟨"POST", "/items", headerOf "Accept" "text/html", none⟩)
    ctxWithRequest []).2.2 (by decide) "/ping" rfl).2.2 ⟨200, Header.empty, some 0⟩ _ rfl

/-! ## The response body steps: read, then restore -/

theorem theResponseIs_eq (ctx : Context) (resp : Response) (a : Addr) (B T : String)
    (w : World) (hslot : ctx.Value Key.ResponseKey = some (Value.response resp))
    (hbody : resp.Body = some a) (hreader : w.heap.readers[a]? = some ⟨B, none⟩) :
    theResponseIs ctx T w =
      Outcome.ret
        (WithValue ctx Key.ResponseKey
          (Value.response { resp with Body := some w.heap.readers.length }))
        (if T ≠ B then some ⟨"the body doesn't contain a valid JSON"⟩ else none)
        { w with heap := { w.heap with
            readers := w.heap.readers.set a ⟨"", none⟩ ++ [⟨B, none⟩] } } := by
  simp only [theResponseIs, hslot, ReadAll, hbody, hreader, NewBuffer, List.length_set]
  split <;> rfl

theorem validJSON_eq (t : Env) (ctx : Context) (resp : Response) (a : Addr) (B : String)
    (w : World) (hslot : ctx.Value Key.ResponseKey = some (Value.response resp))
    (hbody : resp.Body = some a) (hreader : w.heap.readers[a]? = some ⟨B, none⟩) :
    validJSON t ctx w =
      Outcome.ret
        (WithValue ctx Key.ResponseKey
          (Value.response { resp with Body := some w.heap.readers.length }))
        (if (!t.jsonValid B) = true then some ⟨"the body doesn't contain a valid JSON"⟩ else none)
        { w with heap := { w.heap with
            readers := w.heap.readers.set a ⟨"", none⟩ ++ [⟨B, none⟩] } } := by
  simp only [validJSON, hslot, ReadAll, hbody, hreader, NewBuffer, List.length_set]
  split <;> rfl

theorem getElem?_set_concat_length {α : Type} (l : List α) (i : Nat) (x y : α) :
    (l.set i x ++ [y])[l.length]? = some y := by
  have h := List.getElem?_concat_length (l.set i x) y
  rwa [List.length_set] at h

/-- The read itself drains the stream: after `theResponseIs`, the reader the input context
points to has no bytes left; only the returned context reads the body again. -/
theorem theResponseIs_drains_original (ctx : Context) (resp : Response) (a : Addr)
    (B T : String) (w : World)
    (hslot : ctx.Value Key.ResponseKey = some (Value.response resp))
    (hbody : resp.Body = some a) (hreader : w.heap.readers[a]? = some ⟨B, none⟩) :
    ∃ ctx' err w', theResponseIs ctx T w = Outcome.ret ctx' err w' ∧
      ∃ h, ReadAll w'.heap resp.Body = some ("", none, h) := by
  have ha : a < w.heap.readers.length := (List.getElem?_eq_some.mp hreader).1
  refine ⟨_, _, _, theResponseIs_eq ctx resp a B T w hslot hbody hreader, ?_⟩
  have hget : (w.heap.readers.set a ⟨"", none⟩ ++ [⟨B, none⟩])[a]? = some ⟨"", none⟩ := by
    rw [List.getElem?_append_left (by simpa using ha)]
    simp [ha]
  simp only [ReadAll, hbody, hget]
  exact ⟨_, rfl⟩

/-- C2: with a response in the Response slot whose body reads as `B`, `theResponseIs` with
any text `T` returns (a nil error exactly when `T = B`) a context whose Response slot holds
the same code and headers and a fresh body that reads as the full `B`; on that context and
world a following `theResponseIs` with `T2` succeeds exactly when `T2 = B` and a following
`validJSON` succeeds exactly when `B` is valid JSON, each with the very error the step gives
when the first step has not run. -/
theorem theResponseIs_restores_body (t : Env) (ctx : Context) (resp : Response) (a : Addr)
    (B T : String) (w : World)
    (hslot : ctx.Value Key.ResponseKey = some (Value.response resp))
    (hbody : resp.Body = some a) (hreader : w.heap.readers[a]? = some ⟨B, none⟩) :
    ∃ ctx' err w' resp',
      theResponseIs ctx T w = Outcome.ret ctx' err w' ∧ (err = none ↔ T = B) ∧
      ctx'.Value Key.ResponseKey = some (Value.response resp') ∧
      resp'.Code = resp.Code ∧ resp'.Header = resp.Header ∧
      (∃ h, ReadAll w'.heap resp'.Body = some (B, none, h)) ∧
      (∀ T2, ((theResponseIs ctx' T2 w').error = some none ↔ T2 = B) ∧
        (theResponseIs ctx' T2 w').error = (theResponseIs ctx T2 w).error) ∧
      ((validJSON t ctx' w').error = some none ↔ t.jsonValid B = true) ∧
      (validJSON t ctx' w').error = (validJSON t ctx w).error := by
  have e1 := theResponseIs_eq ctx resp a B T w hslot hbody hreader
  have hslot2 := Context.Value_WithValue_same ctx Key.ResponseKey
    (Value.response { resp with Body := some w.heap.readers.length })
  have hreader2 := getElem?_set_concat_length w.heap.readers a ⟨"", none⟩ ⟨B, none⟩
  refine ⟨_, _, _, _, e1, ?_, hslot2, rfl, rfl, ?_, ?_, ?_, ?_⟩
  · by_cases hT : T = B <;> simp [hT]
  · simp only [ReadAll, hreader2]
    exact ⟨_, rfl⟩
  · intro T2
    rw [theResponseIs_eq _ _ _ B T2 _ hslot2 rfl hreader2,
      theResponseIs_eq ctx resp a B T2 w hslot hbody hreader]
    by_cases hT : T2 = B <;> simp [Outcome.error, hT]
  · rw [validJSON_eq t _ _ _ B _ hslot2 rfl hreader2]
    cases t.jsonValid B <;> simp [Outcome.error]
  · rw [validJSON_eq t _ _ _ B _ hslot2 rfl hreader2,
      validJSON_eq t ctx resp a B w hslot hbody hreader]
    rfl

/-- C2 (witness): the stored body is `[]` and the first step expects `other`, so it fails;
the body still reads as `[]` afterwards. -/
theorem theResponseIs_restores_body_witness :
    Context.Value (ctxWithResponse 200 Header.empty) Key.ResponseKey =
        some (Value.response ⟨200, Header.empty, some 0⟩) ∧
    (worldWithBody "[]").heap.readers[0]? = some ⟨"[]", none⟩ ∧
    ∃ ctx' err w' resp',
      theResponseIs (ctxWithResponse 200 Header.empty) "other" (worldWithBody "[]") =
        Outcome.ret ctx' err w' ∧ (err = none ↔ "other" = "[]") ∧
      ctx'.Value Key.ResponseKey = some (Value.response resp') ∧
      resp'.Code = 200 ∧ resp'.Header = Header.empty ∧
      (∃ h, ReadAll w'.heap resp'.Body = some ("[]", none, h)) ∧
      (∀ T2, ((theResponseIs ctx' T2 w').error = some none ↔ T2 = "[]") ∧
        (theResponseIs ctx' T2 w').error =
          (theResponseIs (ctxWithResponse 200 Header.empty) T2 (worldWithBody "[]")).error) ∧
      ((validJSON stubEnv ctx' w').error = some none ↔ stubEnv.jsonValid "[]" = true) ∧
      (validJSON stubEnv ctx' w').error =
        (validJSON stubEnv (ctxWithResponse 200 Header.empty) (worldWithBody "[]")).error :=
  ⟨rfl, rfl, theResponseIs_restores_body stubEnv (ctxWithResponse 200 Header.empty)
    ⟨200, Header.empty, some 0⟩ 0 "[]" "other" (worldWithBody "[]") rfl rfl rfl⟩

end testhttp
